import Mathlib

/-!
Verification of the django-hitcount core (src/hitcount/models.py).

The embedding models timestamps as integers (microseconds, like Python
`datetime` resolution); `datetime.datetime.utcnow()` becomes an explicit
`now` argument threaded through every operation.  The `hits` column is
modelled as `Int`: the field is declared as a non-negative integer
(`PositiveIntegerField`), but both the increment and the decrement are
issued to the store as raw `F` expressions (`hits = hits + 1` /
`hits = hits - 1`) with no floor applied at this layer, so the update
itself is plain integer arithmetic.  A Django `DateTimeField` with no
default starts out as Python `None`, hence `created : Option Int`;
`if not self.created` is the `Option.isNone` test (a datetime object is
never falsy).
-/

namespace Hitcount

/-- Aggregate record (model `HitCount`): running total and last-modified
timestamp.  Content-type / object-id identify the aggregate externally and
play no role in the per-aggregate dynamics, so they are omitted. -/
structure HitCount where
  hits : Int
  modified : Int
deriving DecidableEq, Repr

/-- Embeds `HitCount.save`: it unconditionally sets
`self.modified = datetime.datetime.utcnow()` and then persists. -/
def HitCount.save (now : Int) (hc : HitCount) : HitCount :=
  { hc with modified := now }

/-- Event record (model `Hit`): creation timestamp (unset before the first
save) and the visitor identifiers. The required back-reference `hitcount`
is represented by passing the owning `HitCount` explicitly to the
operations that touch it. -/
structure Hit where
  created : Option Int
  ip : String
  session : String
  user_agent : String
deriving DecidableEq, Repr

/-- Embeds `Hit.save`: when `self.created` is unset, set
`self.hitcount.hits = F('hits') + 1`, save the aggregate (which stamps
`modified`), and assign `self.created = utcnow()`; otherwise just persist.
Returns the persisted hit together with the owning aggregate. -/
def Hit.save (now : Int) (h : Hit) (hc : HitCount) : Hit × HitCount :=
  if h.created.isNone then
    ({ h with created := some now }, HitCount.save now { hc with hits := hc.hits + 1 })
  else
    (h, hc)

/-- Embeds the `subtract_hit_count` pre-delete signal handler: set
`instance.hitcount.hits = F('hits') - 1` and save the aggregate. -/
def subtract_hit_count (now : Int) (hc : HitCount) : HitCount :=
  HitCount.save now { hc with hits := hc.hits - 1 }

/-- Python exceptions that the embedded operations can raise. -/
inductive PyError where
  | assertionError (msg : String)
  | typeError
deriving DecidableEq, Repr

/-- Microseconds per unit for each keyword accepted by
`datetime.timedelta`; `none` for an unrecognized keyword (which makes
`timedelta(**kwargs)` raise `TypeError`). -/
def timedeltaUnitMicros : String → Option Int
  | "days" => some 86400000000
  | "seconds" => some 1000000
  | "microseconds" => some 1
  | "milliseconds" => some 1000
  | "minutes" => some 60000000
  | "hours" => some 3600000000
  | "weeks" => some 604800000000
  | _ => none

/-- Whether every keyword in the argument list is one `datetime.timedelta`
accepts. -/
def validTimedeltaKwargs (kwargs : List (String × Int)) : Bool :=
  kwargs.all (fun kv => (timedeltaUnitMicros kv.fst).isSome)

/-- Total duration, in microseconds, of `datetime.timedelta(**kwargs)`
(meaningful when `validTimedeltaKwargs` holds). -/
def timedeltaMicros (kwargs : List (String × Int)) : Int :=
  (kwargs.map (fun kv => ((timedeltaUnitMicros kv.fst).getD 0) * kv.snd)).sum

/-- The queryset predicate `created__gte=period`.  A hit whose `created`
is unset never matches (SQL `NULL >= x` is not true). -/
def Hit.createdGte (h : Hit) (period : Int) : Bool :=
  match h.created with
  | some c => decide (period ≤ c)
  | none => false

/-- Embeds `HitCount.hits_in_last`: `assert kwargs` (an `AssertionError`
when no timedelta argument is given), then
`period = utcnow() - timedelta(**kwargs)` (a `TypeError` on an
unrecognized keyword), then `self.hit_set.filter(created__gte=period).count()`.
The aggregate's `hit_set` is passed explicitly. -/
def HitCount.hits_in_last (now : Int) (kwargs : List (String × Int))
    (hit_set : List Hit) : Except PyError Nat :=
  if kwargs.isEmpty then
    .error (.assertionError "Must provide at least one timedelta arg (eg, days=1)")
  else if validTimedeltaKwargs kwargs then
    .ok (hit_set.countP (fun h => h.createdGte (now - timedeltaMicros kwargs)))
  else
    .error .typeError

/-- Embeds `HitManager.filter_active`:
`grace = getattr(settings, 'HITCOUNT_KEEP_HIT_ACTIVE', {'days': 7})`,
`period = utcnow() - timedelta(**grace)`, then the base queryset filtered
by `created__gte=period` and further by the caller-supplied filters
(represented by the predicate `extra`).  `keep_hit_active_setting` is the
optional `HITCOUNT_KEEP_HIT_ACTIVE` setting. -/
def filter_active (now : Int) (keep_hit_active_setting : Option (List (String × Int)))
    (extra : Hit → Bool) (queryset : List Hit) : Except PyError (List Hit) :=
  let grace := keep_hit_active_setting.getD [("days", 7)]
  if validTimedeltaKwargs grace then
    .ok ((queryset.filter (fun h => h.createdGte (now - timedeltaMicros grace))).filter extra)
  else
    .error .typeError

/-- Spec-side restatement of `filter_active` (for refinement comparison
only, written from the spec's words, not from the source): it keeps
exactly the events whose `created` timestamp lies within
`now - activeWindow` to `now`, then applies the caller-supplied filters. -/
def filterActiveSpec (now window : Int) (extra : Hit → Bool)
    (queryset : List Hit) : List Hit :=
  (queryset.filter (fun h =>
    match h.created with
    | some c => decide (now - window ≤ c) && decide (c ≤ now)
    | none => false)).filter extra

/-! ### Per-aggregate dynamics

One aggregate together with its persisted `hit_set`, driven by the core
operations that can touch it: creating a hit (`Hit(...).save()` on a fresh
instance), deleting a hit (ORM delete, which fires `subtract_hit_count`
before removing the row), re-saving an already-persisted hit, and saving
the aggregate itself. -/

/-- Request metadata for one incoming view. -/
structure ViewData where
  now : Int
  ip : String
  session : String
  user_agent : String
deriving DecidableEq, Repr

/-- A fresh, unsaved `Hit` instance built from the request metadata
(`created` not yet assigned). -/
def newHit (v : ViewData) : Hit :=
  { created := none, ip := v.ip, session := v.session, user_agent := v.user_agent }

/-- One aggregate and its stored hit events. -/
structure AggState where
  agg : HitCount
  events : List Hit
deriving DecidableEq, Repr

/-- The core operations that can touch one aggregate. -/
inductive Op where
  | createHit (v : ViewData)
  | deleteHit (idx : Nat) (now : Int)
  | resaveHit (idx : Nat) (now : Int)
  | saveAgg (now : Int)
deriving DecidableEq, Repr

/-- Apply one operation: `createHit` saves a fresh `Hit` (incrementing the
aggregate via `Hit.save`) and stores it; `deleteHit` fires
`subtract_hit_count` and removes the row (a no-op on a nonexistent index);
`resaveHit` calls `Hit.save` on an already-stored hit; `saveAgg` calls
`HitCount.save`. -/
def applyOp (st : AggState) : Op → AggState
  | .createHit v =>
      let p := Hit.save v.now (newHit v) st.agg
      { agg := p.2, events := st.events ++ [p.1] }
  | .deleteHit idx now =>
      if idx < st.events.length then
        { agg := subtract_hit_count now st.agg, events := st.events.eraseIdx idx }
      else st
  | .resaveHit idx now =>
      match st.events[idx]? with
      | some h =>
          let p := Hit.save now h st.agg
          { agg := p.2, events := st.events.set idx p.1 }
      | none => st
  | .saveAgg now => { agg := HitCount.save now st.agg, events := st.events }

/-- Run a sequence of operations. -/
def run (st : AggState) (ops : List Op) : AggState :=
  ops.foldl applyOp st

/-- A lazily-created aggregate starts with `hits = 0` and no events. -/
def initState (m : Int) : AggState :=
  { agg := { hits := 0, modified := m }, events := [] }

/-- The counter invariant: `hits` equals the number of stored events, and
every stored event has its `created` timestamp set. -/
abbrev counterInv (st : AggState) : Prop :=
  st.agg.hits = (st.events.length : Int) ∧ ∀ h ∈ st.events, h.created.isSome

/-- Spec-side count (written from the spec's words): the number of events
of the aggregate whose `created` timestamp satisfies
`created >= now - window`. -/
def specWindowCount (now window : Int) (hit_set : List Hit) : Nat :=
  (hit_set.filter (fun h =>
    match h.created with
    | some c => decide (now - window ≤ c)
    | none => false)).length

/-- Spec-side filter (written from the spec's words, lower bound only):
the events whose `created` timestamp satisfies `created >= now - window`,
further restricted by the caller-supplied filters. -/
def specGteFilter (now window : Int) (extra : Hit → Bool) (qs : List Hit) : List Hit :=
  (qs.filter (fun h =>
    match h.created with
    | some c => decide (now - window ≤ c)
    | none => false)).filter extra

/-- A concrete hit created at the given timestamp. -/
def hitAt (c : Int) : Hit :=
  { created := some c, ip := "127.0.0.1", session := "sess", user_agent := "ua" }

/-- One day in microseconds. -/
def dayMicros : Int := 86400000000

/-! ### Invariant helper lemmas -/

/-- Every single core operation preserves the counter invariant. -/
theorem counterInv_applyOp (st : AggState) (op : Op) (h : counterInv st) :
    counterInv (applyOp st op) := by
  obtain ⟨hlen, hmem⟩ := h
  cases op with
  | createHit v =>
      refine ⟨?_, ?_⟩
      · simp only [applyOp, Hit.save, newHit, Option.isNone_none, if_pos,
          HitCount.save, List.length_append, List.length_cons, List.length_nil]
        push_cast
        omega
      · intro x hx
        simp only [applyOp, List.mem_append, List.mem_singleton] at hx
        rcases hx with hx | hx
        · exact hmem x hx
        · subst hx
          simp [Hit.save, newHit, HitCount.save]
  | deleteHit idx now =>
      by_cases hidx : idx < st.events.length
      · refine ⟨?_, ?_⟩
        · simp only [applyOp, hidx, if_pos, subtract_hit_count, HitCount.save,
            List.length_eraseIdx]
          omega
        · intro x hx
          simp only [applyOp, hidx, if_pos] at hx
          exact hmem x (List.mem_of_mem_eraseIdx hx)
      · simpa [applyOp, hidx] using ⟨hlen, hmem⟩
  | resaveHit idx now =>
      cases hget : st.events[idx]? with
      | none => simpa [applyOp, hget] using ⟨hlen, hmem⟩
      | some x =>
          have hxmem : x ∈ st.events := by
            obtain ⟨hlt, heq⟩ := List.getElem?_eq_some.mp hget
            exact heq ▸ List.getElem_mem hlt
          obtain ⟨c, hc⟩ := Option.isSome_iff_exists.mp (hmem x hxmem)
          refine ⟨?_, ?_⟩
          · simpa [applyOp, hget, Hit.save, hc, List.length_set] using hlen
          · intro y hy
            simp only [applyOp, hget, Hit.save, hc, Option.isNone_some,
              Bool.false_eq_true, if_neg] at hy
            rcases List.mem_or_eq_of_mem_set hy with hy | hy
            · exact hmem y hy
            · subst hy
              simp [hc]
  | saveAgg now =>
      exact ⟨by simpa [applyOp, HitCount.save] using hlen,
        by simpa [applyOp] using hmem⟩

/-- Running any sequence of core operations preserves the counter
invariant. -/
theorem counterInv_run (st : AggState) (ops : List Op) (h : counterInv st) :
    counterInv (run st ops) := by
  induction ops generalizing st with
  | nil => exact h
  | cons op ops ih => exact ih (applyOp st op) (counterInv_applyOp st op h)

/-- A run consisting only of hit creations adds exactly one to `hits` per
view. -/
theorem run_createHits (views : List ViewData) (st : AggState) :
    (run st (views.map Op.createHit)).agg.hits = st.agg.hits + views.length := by
  induction views generalizing st with
  | nil => simp [run]
  | cons v vs ih =>
      have hstep : run st ((v :: vs).map Op.createHit) =
          run (applyOp st (Op.createHit v)) (vs.map Op.createHit) := rfl
      rw [hstep, ih]
      simp only [applyOp, Hit.save, newHit, Option.isNone_none, if_pos,
        HitCount.save, List.length_cons]
      push_cast
      omega

/-! ### Claim theorems -/

/-- C1: the `hits` counter equals the number of stored (non-deleted) hit
events: the invariant `counterInv` is preserved by every sequence of core
operations; a hit creation adds exactly 1, a hit deletion subtracts
exactly 1, and re-saving a stored hit or saving the aggregate leaves
`hits` unchanged; consequently, after any sequence of N accepted views
(creations) and no deletions starting from `hits = 0`, `hits = N`. -/
theorem hits_match_live_events :
    (∀ (st : AggState) (ops : List Op), counterInv st → counterInv (run st ops)) ∧
    (∀ (st : AggState) (v : ViewData),
      (applyOp st (Op.createHit v)).agg.hits = st.agg.hits + 1) ∧
    (∀ (st : AggState) (idx : Nat) (now : Int), idx < st.events.length →
      (applyOp st (Op.deleteHit idx now)).agg.hits = st.agg.hits - 1) ∧
    (∀ (st : AggState) (idx : Nat) (now : Int) (h : Hit),
      st.events[idx]? = some h → h.created.isSome →
      (applyOp st (Op.resaveHit idx now)).agg.hits = st.agg.hits) ∧
    (∀ (st : AggState) (now : Int),
      (applyOp st (Op.saveAgg now)).agg.hits = st.agg.hits) ∧
    (∀ (m : Int) (views : List ViewData),
      (run (initState m) (views.map Op.createHit)).agg.hits = views.length) := by
  refine ⟨counterInv_run, ?_, ?_, ?_, ?_, ?_⟩
  · intro st v
    simp [applyOp, Hit.save, newHit, HitCount.save]
  · intro st idx now hidx
    simp [applyOp, hidx, subtract_hit_count, HitCount.save]
  · intro st idx now h hget hsome
    obtain ⟨c, hc⟩ := Option.isSome_iff_exists.mp hsome
    simp [applyOp, hget, Hit.save, hc]
  · intro st now
    simp [applyOp, HitCount.save]
  · intro m views
    rw [run_createHits]
    simp [initState]

/-- Witness for C1: each conjunct applied at concrete states — a run of
two creations and one deletion keeps the invariant, and two accepted
views on a fresh aggregate leave `hits = 2`. -/
theorem hits_match_live_events_witness :
    counterInv (run (initState 0)
      [Op.createHit ⟨1, "a", "s", "u"⟩, Op.createHit ⟨2, "a", "s", "u"⟩,
        Op.deleteHit 0 3]) ∧
    (applyOp (initState 0) (Op.createHit ⟨1, "a", "s", "u"⟩)).agg.hits =
      (initState 0).agg.hits + 1 ∧
    (applyOp { agg := { hits := 1, modified := 1 }, events := [hitAt 1] }
      (Op.deleteHit 0 2)).agg.hits = 0 ∧
    (applyOp { agg := { hits := 1, modified := 1 }, events := [hitAt 1] }
      (Op.resaveHit 0 2)).agg.hits = 1 ∧
    (applyOp { agg := { hits := 1, modified := 1 }, events := [hitAt 1] }
      (Op.saveAgg 2)).agg.hits = 1 ∧
    (run (initState 0)
      ([⟨1, "a", "s", "u"⟩, ⟨2, "a", "s", "u"⟩].map Op.createHit)).agg.hits = 2 :=
  ⟨hits_match_live_events.1 (initState 0) _ (by decide),
    hits_match_live_events.2.1 (initState 0) ⟨1, "a", "s", "u"⟩,
    hits_match_live_events.2.2.1
      { agg := { hits := 1, modified := 1 }, events := [hitAt 1] } 0 2 (by decide),
    hits_match_live_events.2.2.2.1
      { agg := { hits := 1, modified := 1 }, events := [hitAt 1] } 0 2 (hitAt 1)
      (by decide) (by decide),
    hits_match_live_events.2.2.2.2.1
      { agg := { hits := 1, modified := 1 }, events := [hitAt 1] } 2,
    hits_match_live_events.2.2.2.2.2 0 [⟨1, "a", "s", "u"⟩, ⟨2, "a", "s", "u"⟩]⟩

/-- C2: `created` is set exactly once, on the first save: when `created`
is unset, `Hit.save` increments the owning aggregate's `hits` by 1 and
assigns `created := now`; when `created` is already set, `Hit.save`
leaves the hit (in particular `created`) and the owning aggregate (in
particular `hits`) unchanged. -/
theorem hit_save_sets_created_once (now : Int) (h : Hit) (hc : HitCount) :
    (h.created = none →
      (Hit.save now h hc).1.created = some now ∧
      (Hit.save now h hc).2.hits = hc.hits + 1) ∧
    (h.created ≠ none → Hit.save now h hc = (h, hc)) := by
  constructor
  · intro hcreated
    simp [Hit.save, hcreated, HitCount.save]
  · intro hcreated
    simp [Hit.save, Option.isNone_iff_eq_none, hcreated]

/-- Witness for C2 at concrete inputs: a fresh hit and an already-saved
hit, over a concrete aggregate. -/
theorem hit_save_sets_created_once_witness :
    ((Hit.save 5 { created := none, ip := "a", session := "s", user_agent := "u" }
        { hits := 3, modified := 0 }).1.created = some 5 ∧
      (Hit.save 5 { created := none, ip := "a", session := "s", user_agent := "u" }
        { hits := 3, modified := 0 }).2.hits = 3 + 1) ∧
    Hit.save 9 { created := some 2, ip := "a", session := "s", user_agent := "u" }
        { hits := 3, modified := 0 } =
      ({ created := some 2, ip := "a", session := "s", user_agent := "u" },
        { hits := 3, modified := 0 }) :=
  ⟨(hit_save_sets_created_once 5
      { created := none, ip := "a", session := "s", user_agent := "u" }
      { hits := 3, modified := 0 }).1 rfl,
    (hit_save_sets_created_once 9
      { created := some 2, ip := "a", session := "s", user_agent := "u" }
      { hits := 3, modified := 0 }).2 (by decide)⟩

/-- C3: the delete path (`subtract_hit_count`, fired by the `pre_delete`
signal on every `Hit` deletion) leaves the owning aggregate's `hits` at
exactly its previous value minus 1. -/
theorem delete_decrements_by_one (now : Int) (hc : HitCount) :
    (subtract_hit_count now hc).hits = hc.hits - 1 := by
  simp [subtract_hit_count, HitCount.save]

/-- C7: every `HitCount.save` stamps `modified = now`; in particular the
increment path (`Hit.save` on a fresh hit) yields `hits + 1` and
`modified = now`. -/
theorem save_stamps_modified (now : Int) (hc : HitCount) (h : Hit) :
    (HitCount.save now hc).modified = now ∧
    (h.created = none →
      (Hit.save now h hc).2.hits = hc.hits + 1 ∧
      (Hit.save now h hc).2.modified = now) := by
  refine ⟨rfl, fun hcreated => ?_⟩
  simp [Hit.save, hcreated, HitCount.save]

/-- Witness for C7 at concrete inputs. -/
theorem save_stamps_modified_witness :
    (HitCount.save 7 { hits := 2, modified := 1 }).modified = 7 ∧
    ((Hit.save 7 { created := none, ip := "a", session := "s", user_agent := "u" }
        { hits := 2, modified := 1 }).2.hits = 2 + 1 ∧
      (Hit.save 7 { created := none, ip := "a", session := "s", user_agent := "u" }
        { hits := 2, modified := 1 }).2.modified = 7) :=
  ⟨(save_stamps_modified 7 { hits := 2, modified := 1 }
      { created := none, ip := "a", session := "s", user_agent := "u" }).1,
    (save_stamps_modified 7 { hits := 2, modified := 1 }
      { created := none, ip := "a", session := "s", user_agent := "u" }).2 rfl⟩

/-- C8: the decrement applied on deletion enforces no lower bound at this
layer: on an aggregate whose `hits` counter is 0, `subtract_hit_count`
produces `hits = -1`, strictly below zero, instead of rejecting or
clamping. -/
theorem decrement_no_floor (now m : Int) :
    (subtract_hit_count now { hits := 0, modified := m }).hits = -1 ∧
    (subtract_hit_count now { hits := 0, modified := m }).hits < 0 := by
  simp [subtract_hit_count, HitCount.save]

/-- C10: deleting a hit also rewrites the owning aggregate's `modified`
timestamp: `subtract_hit_count` is exactly a `HitCount.save` of the
decremented record, and `HitCount.save` unconditionally stamps
`modified = now`, so `modified` is not preserved across deletions. -/
theorem delete_stamps_modified (now : Int) (hc : HitCount) :
    subtract_hit_count now hc = HitCount.save now { hc with hits := hc.hits - 1 } ∧
    (subtract_hit_count now hc).modified = now := by
  exact ⟨rfl, rfl⟩

/-- C4: with a valid, positive window, `hits_in_last` returns exactly the
number of events with `created >= now - window`; in particular, with one
event created 1 day ago and one created 10 days ago, `hits_in_last`
over a 7-day window returns 1. -/
theorem hits_in_last_window_count :
    (∀ (now : Int) (kwargs : List (String × Int)) (hit_set : List Hit),
      kwargs ≠ [] → validTimedeltaKwargs kwargs = true →
      0 < timedeltaMicros kwargs →
      HitCount.hits_in_last now kwargs hit_set =
        Except.ok (specWindowCount now (timedeltaMicros kwargs) hit_set)) ∧
    HitCount.hits_in_last (10 * dayMicros) [("days", 7)]
      [hitAt (9 * dayMicros), hitAt 0] = Except.ok 1 := by
  constructor
  · intro now kwargs hit_set hne hvalid _
    simp [HitCount.hits_in_last, List.isEmpty_iff, hne, hvalid, specWindowCount,
      List.countP_eq_length_filter, Hit.createdGte]
  · rfl

/-- Witness for C4: the universal part applied at a concrete positive
window and a concrete hit list. -/
theorem hits_in_last_window_count_witness :
    HitCount.hits_in_last 0 [("days", 1)] [hitAt (-1), hitAt 0] =
      Except.ok (specWindowCount 0 (timedeltaMicros [("days", 1)]) [hitAt (-1), hitAt 0]) :=
  hits_in_last_window_count.1 0 [("days", 1)] [hitAt (-1), hitAt 0]
    (by decide) (by decide) (by decide)

/-- C5 counterexample: a non-positive window duration (`days = 0`) is not
rejected with an error — `hits_in_last` returns a count (`Except.ok 0`)
even though the event log is non-empty. -/
theorem hits_in_last_zero_window_ok :
    timedeltaMicros [("days", 0)] ≤ 0 ∧
    HitCount.hits_in_last 0 [("days", 0)] [hitAt (-5)] = Except.ok 0 :=
  ⟨by decide, rfl⟩

/-- C5 amended: `hits_in_last` raises `TypeError` when the window
arguments contain a keyword `datetime.timedelta` does not accept, and
`AssertionError` when no argument is given at all (see C9); a non-positive
window duration is accepted and the call returns the count of events with
`created >= now - window` rather than an error. -/
theorem hits_in_last_error_behavior :
    (∀ (now : Int) (kwargs : List (String × Int)) (hit_set : List Hit),
      kwargs ≠ [] → validTimedeltaKwargs kwargs = false →
      HitCount.hits_in_last now kwargs hit_set = Except.error PyError.typeError) ∧
    (∀ (now : Int) (kwargs : List (String × Int)) (hit_set : List Hit),
      kwargs ≠ [] → validTimedeltaKwargs kwargs = true →
      timedeltaMicros kwargs ≤ 0 →
      HitCount.hits_in_last now kwargs hit_set =
        Except.ok (specWindowCount now (timedeltaMicros kwargs) hit_set)) := by
  constructor
  · intro now kwargs hit_set hne hinvalid
    simp [HitCount.hits_in_last, List.isEmpty_iff, hne, hinvalid]
  · intro now kwargs hit_set hne hvalid _
    simp [HitCount.hits_in_last, List.isEmpty_iff, hne, hvalid, specWindowCount,
      List.countP_eq_length_filter, Hit.createdGte]

/-- Witness for C5's amended claim: an unrecognized keyword raises
`TypeError`, and a zero-length window returns a count. -/
theorem hits_in_last_error_behavior_witness :
    HitCount.hits_in_last 0 [("fortnights", 1)] [hitAt 0] =
      Except.error PyError.typeError ∧
    HitCount.hits_in_last 0 [("days", 0)] [hitAt (-5)] =
      Except.ok (specWindowCount 0 (timedeltaMicros [("days", 0)]) [hitAt (-5)]) :=
  ⟨hits_in_last_error_behavior.1 0 [("fortnights", 1)] [hitAt 0] (by decide) (by decide),
    hits_in_last_error_behavior.2 0 [("days", 0)] [hitAt (-5)] (by decide) (by decide)
      (by decide)⟩

/-- C9: `hits_in_last` called with no timedelta arguments fails with the
`AssertionError` from `assert kwargs`; it never reaches the counting
query, so it does not fall back to counting all events. -/
theorem hits_in_last_no_args_asserts (now : Int) (hit_set : List Hit) :
    HitCount.hits_in_last now [] hit_set =
      Except.error (PyError.assertionError
        "Must provide at least one timedelta arg (eg, days=1)") := rfl

/-- C6 counterexample: `filter_active` does not bound `created` above by
`now` — an event stamped in the future (created = 1, now = 0) is
returned, while the spec-side filter over the window
`now - activeWindow .. now` excludes it. -/
theorem filter_active_future_event :
    filter_active 0 none (fun _ => true) [hitAt 1] = Except.ok [hitAt 1] ∧
    filterActiveSpec 0 (timedeltaMicros [("days", 7)]) (fun _ => true) [hitAt 1] = [] :=
  ⟨rfl, by decide⟩

/-- C6 amended: `filter_active` returns exactly the events with
`created >= now - activeWindow` (no upper bound at `now` is applied),
further restricted by the caller-supplied filters, where the active
window defaults to 7 days and is configurable via the
`HITCOUNT_KEEP_HIT_ACTIVE` setting; an event created more than
`activeWindow` before `now` is not returned. -/
theorem filter_active_window :
    (∀ (now : Int) (setting : Option (List (String × Int))) (extra : Hit → Bool)
      (qs : List Hit),
      validTimedeltaKwargs (setting.getD [("days", 7)]) = true →
      filter_active now setting extra qs =
        Except.ok (specGteFilter now (timedeltaMicros (setting.getD [("days", 7)]))
          extra qs)) ∧
    timedeltaMicros [("days", 7)] = 7 * dayMicros ∧
    (∀ (now : Int) (extra : Hit → Bool) (qs res : List Hit) (h : Hit) (c : Int),
      filter_active now none extra qs = Except.ok res →
      h ∈ res → h.created = some c → now - 7 * dayMicros ≤ c) := by
  refine ⟨?_, by decide, ?_⟩
  · intro now setting extra qs hvalid
    simp [filter_active, hvalid, specGteFilter, Hit.createdGte]
  · intro now extra qs res h c hrun hmem hcreated
    have hres : res = qs.filter (fun a =>
        extra a && a.createdGte (now - timedeltaMicros [("days", 7)])) := by
      simpa [filter_active, show validTimedeltaKwargs [("days", 7)] = true by decide]
        using hrun.symm
    subst hres
    have hpred := (List.mem_filter.mp hmem).2
    rw [Bool.and_eq_true] at hpred
    replace hpred := hpred.2
    simp only [Hit.createdGte, hcreated, decide_eq_true_eq] at hpred
    have ht : timedeltaMicros [("days", 7)] = 604800000000 := by decide
    have hd : dayMicros = 86400000000 := rfl
    omega

/-- Witness for C6's amended claim: the default 7-day window applied to a
concrete list with one recent and one 8-day-old event. -/
theorem filter_active_window_witness :
    filter_active 0 none (fun _ => true) [hitAt (-dayMicros), hitAt (-8 * dayMicros)] =
      Except.ok (specGteFilter 0 (timedeltaMicros [("days", 7)]) (fun _ => true)
        [hitAt (-dayMicros), hitAt (-8 * dayMicros)]) ∧
    (0 : Int) - 7 * dayMicros ≤ -dayMicros :=
  ⟨filter_active_window.1 0 none (fun _ => true)
      [hitAt (-dayMicros), hitAt (-8 * dayMicros)] (by decide),
    filter_active_window.2.2 0 (fun _ => true)
      [hitAt (-dayMicros), hitAt (-8 * dayMicros)]
      ((([hitAt (-dayMicros), hitAt (-8 * dayMicros)].filter
          (fun h => h.createdGte (0 - timedeltaMicros [("days", 7)]))).filter
          (fun _ => true)))
      (hitAt (-dayMicros)) (-dayMicros) rfl (by decide) rfl⟩

end Hitcount
